import Mathlib

/-!
Shallow embedding of the mongo-gen-tasks task-generation pipeline.

Conventions used throughout this development:
* `f64` runtime values from the Rust source are modelled as rationals (`ℚ`);
  every statement below either does not depend on rounding behaviour, or is
  evaluated at inputs on which IEEE-754 double arithmetic is exact.
* Rust `HashMap` values are modelled as insertion-ordered association lists
  (`List (String × _)`); only lookup, in-place update and append are used by
  the source, and the sums computed from them are iteration-order independent.
* A Rust `panic!`/`unwrap()` on `None` is modelled by an `Option`/outcome type.
-/

/- ------------------------------------------------------------------ -/
/- String helpers (models of the `str` methods used by the source).   -/
/- ------------------------------------------------------------------ -/

/-- Model of Rust `str::split(sep)` for a single-character separator,
working over the character list. `"a/b" ↦ [['a'], ['b']]`, `"" ↦ [[]]`. -/
def splitOnChar (sep : Char) : List Char → List (List Char)
  | [] => [[]]
  | c :: cs =>
    let r := splitOnChar sep cs
    if c = sep then [] :: r
    else
      match r with
      | [] => [[c]]
      | seg :: rest => (c :: seg) :: rest

/-- `leadsList p l` is true iff `p` is an initial segment of `l`. -/
def leadsList : List Char → List Char → Bool
  | [], _ => true
  | _ :: _, [] => false
  | a :: as, b :: bs => a = b && leadsList as bs

/-- Repeatedly strip the pattern from the front of a (reversed) character
list; fuel-indexed so the recursion is structural.  With the pattern and the
subject both reversed this is the engine of `str::trim_end_matches`. -/
def stripLeading (pat : List Char) : Nat → List Char → List Char
  | 0, l => l
  | fuel + 1, l =>
    if pat ≠ [] ∧ leadsList pat l then stripLeading pat fuel (l.drop pat.length)
    else l

/-- Model of Rust `str::trim_end_matches`: removes every trailing occurrence
of `pat` from `s`. -/
def trimEndMatches (s pat : String) : String :=
  String.mk ((stripLeading pat.toList.reverse s.toList.length s.toList.reverse).reverse)

/- ------------------------------------------------------------------ -/
/- src/task_history.rs                                                -/
/- ------------------------------------------------------------------ -/

/-- `is_hook` from src/task_history.rs: a stats record is a hook record iff
its `test_file` contains a `":"`. -/
def is_hook (test_file : String) : Bool :=
  test_file.toList.any (fun c => c = ':')

/-- `hook_test_name` from src/task_history.rs: text before the first `":"`. -/
def hook_test_name (test_file : String) : String :=
  String.mk ((splitOnChar ':' test_file.toList).headD [])

/-- `hook_hook_name` from src/task_history.rs: text after the last `":"`. -/
def hook_hook_name (test_file : String) : String :=
  String.mk ((splitOnChar ':' test_file.toList).getLastD [])

/-- `get_test_name` from src/task_history.rs: final `/`-separated segment of
the path, with trailing `".js"` occurrences trimmed. -/
def get_test_name (test_file : String) : String :=
  trimEndMatches (String.mk ((splitOnChar '/' test_file.toList).getLastD [])) ".js"

structure HookRuntimeHistory where
  test_name : String
  hook_name : String
  average_runtime : ℚ
deriving Repr, DecidableEq

structure TestRuntimeHistory where
  test_name : String
  average_runtime : ℚ
  hooks : List HookRuntimeHistory
deriving Repr, DecidableEq

structure TaskRuntimeHistory where
  suite_name : String
  task_name : String
  test_map : List (String × TestRuntimeHistory)
deriving Repr, DecidableEq

/-- Association-list model of `HashMap::get`. -/
def mapGet {α : Type} : List (String × α) → String → Option α
  | [], _ => none
  | (k, v) :: rest, key => if k = key then some v else mapGet rest key

/-- Association-list model of mutation through `HashMap::get_mut`: the entry
is updated in place. -/
def mapUpdate {α : Type} : List (String × α) → String → (α → α) → List (String × α)
  | [], _, _ => []
  | (k, v) :: rest, key, f =>
    if k = key then (k, f v) :: rest else (k, v) :: mapUpdate rest key f

/-- One record returned by the Evergreen test-stats endpoint (the fields of
`evg_api_rs::models::stats::EvgTestStats` used by the source). -/
structure TestStats where
  test_file : String
  avg_duration_pass : ℚ
deriving Repr, DecidableEq

/-- Body of the first loop of `get_task_history` (src/task_history.rs):
collect hook records into `hook_map`. -/
def hookStep (m : List (String × List HookRuntimeHistory)) (stat : TestStats) :
    List (String × List HookRuntimeHistory) :=
  if is_hook stat.test_file then
    let tn := hook_test_name stat.test_file
    let hn := hook_hook_name stat.test_file
    match mapGet m tn with
    | some _ => mapUpdate m tn (fun v => v ++ [⟨tn, hn, stat.avg_duration_pass⟩])
    | none => m ++ [(tn, [⟨tn, hn, stat.avg_duration_pass⟩])]
  else m

def build_hook_map (stats : List TestStats) : List (String × List HookRuntimeHistory) :=
  stats.foldl hookStep []

/-- Body of the second loop of `get_task_history` (src/task_history.rs):
non-hook records are keyed by `get_test_name`; on a collision the existing
entry's `test_name` is overwritten and its `average_runtime` incremented. -/
def testStep (hook_map : List (String × List HookRuntimeHistory))
    (m : List (String × TestRuntimeHistory)) (stat : TestStats) :
    List (String × TestRuntimeHistory) :=
  if is_hook stat.test_file then m
  else
    let tn := get_test_name stat.test_file
    match mapGet m tn with
    | some _ =>
      mapUpdate m tn (fun v =>
        { v with test_name := stat.test_file,
                 average_runtime := v.average_runtime + stat.avg_duration_pass })
    | none =>
      m ++ [(tn, ⟨stat.test_file, stat.avg_duration_pass, (mapGet hook_map tn).getD []⟩)]

def build_test_map (stats : List TestStats) : List (String × TestRuntimeHistory) :=
  stats.foldl (testStep (build_hook_map stats)) []

/-- `get_task_history` from src/task_history.rs, modelled from the point the
Evergreen client has returned its list of stats records (the HTTP fetch and
date-window computation are I/O and outside the embedding). -/
def get_task_history (stats : List TestStats) (task suite : String) : TaskRuntimeHistory :=
  ⟨suite, task, build_test_map stats⟩

/- ------------------------------------------------------------------ -/
/- Decimal rendering (model of Rust integer `Display`/`format!`).     -/
/- ------------------------------------------------------------------ -/

def natDigits : Nat → Nat → List Char
  | 0, _ => []
  | fuel + 1, n =>
    if n < 10 then [Nat.digitChar n]
    else natDigits fuel (n / 10) ++ [Nat.digitChar (n % 10)]

/-- Decimal representation of a natural number (model of `u64` `Display`). -/
def natRepr (n : Nat) : String := String.mk (natDigits (n + 1) n)

/- ------------------------------------------------------------------ -/
/- src/split_tasks.rs                                                 -/
/- ------------------------------------------------------------------ -/

structure SubSuite where
  name : String
  test_list : List String
deriving Repr, DecidableEq

structure GeneratedSuite where
  task_name : String
  suite_name : String
  sub_suites : List SubSuite
deriving Repr, DecidableEq

structure SplitConfig where
  n_suites : Nat
deriving Repr, DecidableEq

/-- The mutable state of the loop in `TaskSplitter::split_task`. -/
structure SplitState where
  sub_suites : List SubSuite
  running_tests : List String
  running_runtime : ℚ
  i : Nat
deriving Repr, DecidableEq

/-- `format!("{}_{}_{}", task_name, i, bv_name)` from split_tasks.rs. -/
def sub_suite_name (task_name : String) (i : Nat) (bv_name : String) : String :=
  task_name ++ "_" ++ natRepr i ++ "_" ++ bv_name

/-- One iteration of the `for test in test_list` loop of
`TaskSplitter::split_task` (src/split_tasks.rs lines 122-140). -/
def split_step (test_map : List (String × TestRuntimeHistory))
    (task_name bv_name : String) (runtime_per_subtask : ℚ) (max_tasks : Nat)
    (st : SplitState) (test : String) : SplitState :=
  match mapGet test_map (get_test_name test) with
  | some test_stats =>
    if st.running_runtime + test_stats.average_runtime > runtime_per_subtask ∧
        st.running_tests ≠ [] ∧ st.sub_suites.length < max_tasks - 1 then
      { sub_suites :=
          st.sub_suites ++ [⟨sub_suite_name task_name st.i bv_name, st.running_tests⟩],
        running_tests := [test],
        running_runtime := test_stats.average_runtime,
        i := st.i + 1 }
    else
      { st with
        running_tests := st.running_tests ++ [test],
        running_runtime := st.running_runtime + test_stats.average_runtime }
  | none => { st with running_tests := st.running_tests ++ [test] }

/-- `TaskSplitter::split_task` (src/split_tasks.rs lines 96-153).  The
`TestDiscovery` collaborator and `Path::exists` check are passed in as
functions.  Division by zero (the `max_tasks == 0` corner, where Rust
computes an infinite or NaN target and therefore never satisfies the split
condition) yields `0` in `ℚ`; in that corner the model also never splits,
because `sub_suites.length < max_tasks - 1` is false under truncated `Nat`
subtraction, so the two semantics produce the same suite. -/
def split_task (discover_tests : String → List String) (path_exists : String → Bool)
    (split_config : SplitConfig) (task_stats : TaskRuntimeHistory) (bv_name : String) :
    GeneratedSuite :=
  let test_list := (discover_tests task_stats.suite_name).filter path_exists
  let total_runtime : ℚ := task_stats.test_map.foldl (fun acc p => acc + p.2.average_runtime) 0
  let max_tasks := min split_config.n_suites test_list.length
  let runtime_per_subtask : ℚ := total_runtime / (max_tasks : ℚ)
  let final := test_list.foldl
    (split_step task_stats.test_map task_stats.task_name bv_name runtime_per_subtask max_tasks)
    ⟨[], [], 0, 0⟩
  let subs :=
    if final.running_tests ≠ [] then
      final.sub_suites ++ [⟨sub_suite_name task_stats.task_name final.i bv_name,
                            final.running_tests⟩]
    else final.sub_suites
  ⟨task_stats.task_name, task_stats.suite_name, subs⟩

/-- Concatenation of the test lists of a list of sub-suites. -/
def flatTests (subs : List SubSuite) : List String :=
  (subs.map SubSuite.test_list).flatten

lemma flatTests_append_single (subs : List SubSuite) (s : SubSuite) :
    flatTests (subs ++ [s]) = flatTests subs ++ s.test_list := by
  simp [flatTests]

/- ------------------------------------------------------------------ -/
/- Splitter loop lemmas.                                              -/
/- ------------------------------------------------------------------ -/

lemma split_foldl_flat (tm : List (String × TestRuntimeHistory)) (tn bv : String)
    (target : ℚ) (mt : Nat) :
    ∀ (ts : List String) (st : SplitState),
      flatTests (ts.foldl (split_step tm tn bv target mt) st).sub_suites ++
          (ts.foldl (split_step tm tn bv target mt) st).running_tests
        = flatTests st.sub_suites ++ st.running_tests ++ ts := by
  intro ts
  induction ts with
  | nil => intro st; simp
  | cons t rest ih =>
    intro st
    simp only [List.foldl_cons]
    rw [ih]
    unfold split_step
    cases h : mapGet tm (get_test_name t) with
    | none => simp [flatTests]
    | some s =>
      by_cases hc : st.running_runtime + s.average_runtime > target ∧
          st.running_tests ≠ [] ∧ st.sub_suites.length < mt - 1
      · simp only [if_pos hc]
        simp [flatTests]
      · simp only [if_neg hc]
        simp [flatTests]

lemma split_foldl_card (tm : List (String × TestRuntimeHistory)) (tn bv : String)
    (target : ℚ) (mt : Nat) :
    ∀ (ts : List String) (st : SplitState),
      (ts.foldl (split_step tm tn bv target mt) st).sub_suites.length ≤
        max st.sub_suites.length (mt - 1) := by
  intro ts
  induction ts with
  | nil => intro st; simp
  | cons t rest ih =>
    intro st
    simp only [List.foldl_cons]
    refine le_trans (ih _) ?_
    unfold split_step
    cases h : mapGet tm (get_test_name t) with
    | none => simp
    | some s =>
      by_cases hc : st.running_runtime + s.average_runtime > target ∧
          st.running_tests ≠ [] ∧ st.sub_suites.length < mt - 1
      · simp only [if_pos hc]
        have hlt : st.sub_suites.length < mt - 1 := hc.2.2
        simp only [List.length_append, List.length_cons, List.length_nil]
        omega
      · simp only [if_neg hc]
        exact le_refl _

lemma split_foldl_nosplit (tm : List (String × TestRuntimeHistory)) (tn bv : String)
    (target : ℚ) (mt : Nat) (hmt : mt - 1 = 0) :
    ∀ (ts : List String) (st : SplitState),
      (ts.foldl (split_step tm tn bv target mt) st).sub_suites = st.sub_suites ∧
      (ts.foldl (split_step tm tn bv target mt) st).running_tests
        = st.running_tests ++ ts := by
  intro ts
  induction ts with
  | nil => intro st; simp
  | cons t rest ih =>
    intro st
    simp only [List.foldl_cons]
    have hstep : (split_step tm tn bv target mt st t).sub_suites = st.sub_suites ∧
        (split_step tm tn bv target mt st t).running_tests = st.running_tests ++ [t] := by
      unfold split_step
      cases h : mapGet tm (get_test_name t) with
      | none => simp
      | some s =>
        have hc : ¬ (st.running_runtime + s.average_runtime > target ∧
            st.running_tests ≠ [] ∧ st.sub_suites.length < mt - 1) := by
          rw [hmt]
          intro hcon
          exact Nat.not_lt_zero _ hcon.2.2
        simp [if_neg hc]
    rcases ih (split_step tm tn bv target mt st t) with ⟨h1, h2⟩
    refine ⟨h1.trans hstep.1, ?_⟩
    rw [h2, hstep.2]
    simp

/- ------------------------------------------------------------------ -/
/- C1                                                                 -/
/- ------------------------------------------------------------------ -/

/-- C1. For every task runtime history and every discovered test list
(filtered to paths that exist), the concatenation of the test lists of the
sub-suites returned by `TaskSplitter::split_task` equals the filtered
discovered test list in the exact discovery order. -/
theorem split_task_partition_coverage (discover_tests : String → List String)
    (path_exists : String → Bool) (split_config : SplitConfig)
    (task_stats : TaskRuntimeHistory) (bv_name : String) :
    flatTests (split_task discover_tests path_exists split_config task_stats bv_name).sub_suites
      = (discover_tests task_stats.suite_name).filter path_exists := by
  unfold split_task
  simp only []
  set L := (discover_tests task_stats.suite_name).filter path_exists with hL
  set tm := task_stats.test_map
  set target := (task_stats.test_map.foldl (fun acc p => acc + p.2.average_runtime) 0) /
    ((min split_config.n_suites L.length : Nat) : ℚ)
  set mt := min split_config.n_suites L.length
  have key := split_foldl_flat tm task_stats.task_name bv_name target mt L ⟨[], [], 0, 0⟩
  set final := L.foldl (split_step tm task_stats.task_name bv_name target mt) ⟨[], [], 0, 0⟩
  have key2 : flatTests final.sub_suites ++ final.running_tests = L := by
    simpa [flatTests] using key
  by_cases h : final.running_tests ≠ []
  · rw [if_pos h, flatTests_append_single]
    exact key2
  · rw [if_neg h]
    push_neg at h
    rw [h] at key2
    simpa using key2

/- ------------------------------------------------------------------ -/
/- C2                                                                 -/
/- ------------------------------------------------------------------ -/

/-- Test discovery returning `[a, b, c]` (spec scenario 3). -/
def cexDiscover : String → List String := fun _ => ["a", "b", "c"]

/-- Every discovered path exists. -/
def cexExists : String → Bool := fun _ => true

/-- Runtime history `{a → 100}` for task `t` on suite `s1`. -/
def cexHistory : TaskRuntimeHistory := ⟨"s1", "t", [("a", ⟨"a", 100, []⟩)]⟩

/-- C2, counterexample.  With history `{a→100}`, discovery `[a,b,c]` (all
existing) and `n_suites = 2`, `split_task` does not return the two
sub-suites `t_0_vA = [a]`, `t_1_vA = [b,c]` the claim expects: the split
condition is only ever evaluated for a test with known stats, `b` and `c`
have none, and the check before `a` fails because `running_tests` is still
empty, so no split ever fires. -/
theorem split_task_unknown_tests_cex :
    ¬ ((split_task cexDiscover cexExists ⟨2⟩ cexHistory "vA").sub_suites.map
        (fun s => (s.name, s.test_list)) = [("t_0_vA", ["a"]), ("t_1_vA", ["b", "c"])]) := by
  have g1 : mapGet [("a", (⟨"a", 100, []⟩ : TestRuntimeHistory))] (get_test_name "a") =
      some ⟨"a", 100, []⟩ := rfl
  have g2 : mapGet [("a", (⟨"a", 100, []⟩ : TestRuntimeHistory))] (get_test_name "b") = none := rfl
  have g3 : mapGet [("a", (⟨"a", 100, []⟩ : TestRuntimeHistory))] (get_test_name "c") = none := rfl
  have n0 : sub_suite_name "t" 0 "vA" = "t_0_vA" := rfl
  simp only [split_task, cexDiscover, cexExists, cexHistory, List.filter_cons, List.filter_nil]
  norm_num [split_step, g1, g2, g3, n0]
  simp

/-- C2, amended.  With history `{a→100}`, discovery `[a,b,c]` (all existing)
and `n_suites = 2`, `split_task` for task `t` on variant `vA` returns exactly
one sub-suite, `t_0_vA`, with test list `[a,b,c]`. -/
theorem split_task_unknown_tests_amended :
    (split_task cexDiscover cexExists ⟨2⟩ cexHistory "vA").sub_suites.map
      (fun s => (s.name, s.test_list)) = [("t_0_vA", ["a", "b", "c"])] := by
  have g1 : mapGet [("a", (⟨"a", 100, []⟩ : TestRuntimeHistory))] (get_test_name "a") =
      some ⟨"a", 100, []⟩ := rfl
  have g2 : mapGet [("a", (⟨"a", 100, []⟩ : TestRuntimeHistory))] (get_test_name "b") = none := rfl
  have g3 : mapGet [("a", (⟨"a", 100, []⟩ : TestRuntimeHistory))] (get_test_name "c") = none := rfl
  have n0 : sub_suite_name "t" 0 "vA" = "t_0_vA" := rfl
  simp only [split_task, cexDiscover, cexExists, cexHistory, List.filter_cons, List.filter_nil]
  norm_num [split_step, g1, g2, g3, n0]
  simp

/- ------------------------------------------------------------------ -/
/- C3                                                                 -/
/- ------------------------------------------------------------------ -/

/-- Test discovery returning the single test `[a]`. -/
def cexDiscoverOne : String → List String := fun _ => ["a"]

/-- C3, counterexample.  With `n_suites = 0` and one discovered existing
test, `max_tasks = min(0, 1) = 0`, yet the final non-empty `running_tests`
still emits one sub-suite, so the bound
`sub_suites.length ≤ min(n_suites, discovered_tests.length)` fails and the
`max_tasks = 0` case does not return an empty suite. -/
theorem split_task_cardinality_cex :
    ¬ ((split_task cexDiscoverOne cexExists ⟨0⟩ cexHistory "vA").sub_suites.length ≤
        min 0 ((cexDiscoverOne "s1").filter cexExists).length) := by
  have g1 : mapGet [("a", (⟨"a", 100, []⟩ : TestRuntimeHistory))] (get_test_name "a") =
      some ⟨"a", 100, []⟩ := rfl
  simp only [split_task, cexDiscoverOne, cexExists, cexHistory, List.filter_cons,
    List.filter_nil]
  norm_num [split_step, g1]

/-- C3, amended.  The number of sub-suites returned by `split_task` is at
most `max (min n_suites L.length) (min 1 L.length)` where `L` is the
filtered discovered test list: at most `min(n_suites, L.length)` whenever
`n_suites ≥ 1`, and at most one sub-suite (containing every test) when
`max_tasks = 0`.  In particular when `max_tasks = min(n_suites, L.length)`
is `0` the suite has `min 1 L.length` sub-suites: none when discovery is
empty, but exactly one when `n_suites = 0` with a non-empty test list. -/
theorem split_task_cardinality (discover_tests : String → List String)
    (path_exists : String → Bool) (split_config : SplitConfig)
    (task_stats : TaskRuntimeHistory) (bv_name : String) :
    (split_task discover_tests path_exists split_config task_stats bv_name).sub_suites.length ≤
      max (min split_config.n_suites ((discover_tests task_stats.suite_name).filter path_exists).length)
          (min 1 ((discover_tests task_stats.suite_name).filter path_exists).length)
    ∧ (min split_config.n_suites ((discover_tests task_stats.suite_name).filter path_exists).length = 0 →
        (split_task discover_tests path_exists split_config task_stats bv_name).sub_suites.length =
          min 1 ((discover_tests task_stats.suite_name).filter path_exists).length) := by
  unfold split_task
  simp only []
  set L := (discover_tests task_stats.suite_name).filter path_exists with hL
  set tm := task_stats.test_map
  set target := (task_stats.test_map.foldl (fun acc p => acc + p.2.average_runtime) 0) /
    ((min split_config.n_suites L.length : Nat) : ℚ)
  set mt := min split_config.n_suites L.length with hmt
  have hflat := split_foldl_flat tm task_stats.task_name bv_name target mt L ⟨[], [], 0, 0⟩
  have hcard := split_foldl_card tm task_stats.task_name bv_name target mt L ⟨[], [], 0, 0⟩
  set final := L.foldl (split_step tm task_stats.task_name bv_name target mt) ⟨[], [], 0, 0⟩
  have hflat2 : flatTests final.sub_suites ++ final.running_tests = L := by
    simpa [flatTests] using hflat
  have hcard2 : final.sub_suites.length ≤ mt - 1 := by simpa using hcard
  constructor
  · by_cases h : final.running_tests ≠ []
    · rw [if_pos h]
      have hLne : L ≠ [] := by
        intro hnil
        rw [hnil] at hflat2
        exact h (List.append_eq_nil.mp hflat2).2
      have hlen : 1 ≤ L.length := List.length_pos.mpr hLne
      simp only [List.length_append, List.length_cons, List.length_nil]
      rcases Nat.eq_zero_or_pos mt with hz | hp
      · have : min 1 L.length = 1 := by omega
        omega
      · have : final.sub_suites.length + (0 + 1) ≤ mt := by omega
        omega
    · rw [if_neg h]
      have : mt - 1 ≤ max mt (min 1 L.length) := by omega
      omega
  · intro hz
    have hns := split_foldl_nosplit tm task_stats.task_name bv_name target mt
      (by omega) L ⟨[], [], 0, 0⟩
    have hsubs : final.sub_suites = [] := hns.1
    have hrun : final.running_tests = L := by simpa using hns.2
    by_cases h : final.running_tests ≠ []
    · rw [if_pos h]
      have hLne : L ≠ [] := by rw [hrun] at h; exact h
      have : 1 ≤ L.length := List.length_pos.mpr hLne
      simp only [hsubs, List.length_append, List.length_cons, List.length_nil,
        List.length_nil]
      omega
    · rw [if_neg h]
      push_neg at h
      rw [hrun] at h
      simp [hsubs, h]

/-- C3, amended, witness: at `n_suites = 0` with one discovered test the
special case applies and yields exactly one sub-suite. -/
theorem split_task_cardinality_witness :
    (split_task cexDiscoverOne cexExists ⟨0⟩ cexHistory "vB").sub_suites.length =
      min 1 ((cexDiscoverOne "s1").filter cexExists).length :=
  (split_task_cardinality cexDiscoverOne cexExists ⟨0⟩ cexHistory "vB").2 (by simp [cexDiscoverOne, cexExists, cexHistory])

/- ------------------------------------------------------------------ -/
/- src/util.rs                                                        -/
/- ------------------------------------------------------------------ -/

/-- Number of decimal digits of `n` (fuel-indexed, structural). -/
def numDigitsFuel : Nat → Nat → Nat
  | 0, _ => 1
  | fuel + 1, n => if n < 10 then 1 else numDigitsFuel fuel (n / 10) + 1

/-- `⌈log₁₀ total⌉` as computed by `(total as f64).log10().ceil() as usize`
in src/util.rs (exact for every total in the sub-task-count range; Rust's
saturating float-to-usize cast sends the `total = 0` value `-∞` to `0`).
For `total ≥ 2` this equals the digit count of `total - 1`. -/
def ceilLog10 (total : Nat) : Nat :=
  if total ≤ 1 then 0 else numDigitsFuel (total - 1) (total - 1)

/-- Model of the `{:0fill$}` format specifier: left-pad the decimal text
with `'0'` up to `width` characters. -/
def zeroPad (width : Nat) (s : String) : String :=
  String.mk (List.replicate (width - s.toList.length) '0' ++ s.toList)

/-- The optional `"_{variant}"` suffix of `name_generated_task`. -/
def variantSuffix (variant : Option String) : String :=
  match variant with
  | some v => "_" ++ v
  | none => ""

/-- The `task_index.is_some()` branch of `name_generated_task`. -/
def name_generated_task_core (parent_name : String) (index total : Nat)
    (suffix : String) : String :=
  parent_name ++ "_" ++ zeroPad (ceilLog10 total) (natRepr index) ++ suffix

/-- `name_generated_task` from src/util.rs.  `none` models the
`total_tasks.unwrap()` panic when an index is supplied without a total. -/
def name_generated_task (parent_name : String) (task_index : Option Nat)
    (total_tasks : Option Nat) (variant : Option String) : Option String :=
  let suffix := variantSuffix variant
  match task_index with
  | some index =>
    match total_tasks with
    | none => none
    | some total => some (name_generated_task_core parent_name index total suffix)
  | none => some (parent_name ++ "_misc" ++ suffix)

lemma natDigits_length (fuel n : Nat) : 1 ≤ (natDigits (fuel + 1) n).length := by
  unfold natDigits
  by_cases h : n < 10
  · simp [h]
  · simp [h]

lemma natRepr_length (n : Nat) : 1 ≤ (natRepr n).toList.length := by
  simpa [natRepr, String.toList] using natDigits_length n n

lemma zeroPad_max_one (w : Nat) (s : String) (h : 1 ≤ s.toList.length) :
    zeroPad (max 1 w) s = zeroPad w s := by
  unfold zeroPad
  have : max 1 w - s.toList.length = w - s.toList.length := by omega
  rw [this]

/- The literal cases of the unit tests of src/util.rs. -/
example : name_generated_task "task" (some 0) (some 10) none = some "task_0" := rfl
example : name_generated_task "task" (some 42) (some 1001) none = some "task_0042" := rfl
example : name_generated_task "task" none (some 1001) none = some "task_misc" := rfl
example : name_generated_task "task" (some 42) (some 1999) (some "variant")
    = some "task_0042_variant" := rfl
example : name_generated_task "task" none none (some "variant") = some "task_misc_variant" := rfl

/- ------------------------------------------------------------------ -/
/- C9                                                                 -/
/- ------------------------------------------------------------------ -/

/-- C9.  `name_generated_task` with index absent returns
`"{parent}_misc"` plus `"_{variant}"` when a variant is given; with index
`i` and total `n` it returns `parent`, `"_"`, and `i` zero-padded to width
`w = ⌈log₁₀ n⌉` with minimum `1`, plus the variant suffix.  (Width
`max 1 w` and the width `w` the source computes pad a non-empty digit
string identically, so the "minimum 1" phrasing agrees with the code.) -/
theorem name_generated_task_spec (parent : String) (variant : Option String)
    (i n : Nat) (tt : Option Nat) :
    name_generated_task parent none tt variant
        = some (parent ++ "_misc" ++ variantSuffix variant) ∧
    name_generated_task parent (some i) (some n) variant
        = some (parent ++ "_" ++ zeroPad (max 1 (ceilLog10 n)) (natRepr i) ++
            variantSuffix variant) := by
  constructor
  · rfl
  · rw [zeroPad_max_one _ _ (natRepr_length i)]
    rfl

/- ------------------------------------------------------------------ -/
/- Association-list lemmas for the history maps.                      -/
/- ------------------------------------------------------------------ -/

lemma mapGet_append {α : Type} (a b : List (String × α)) (k : String) :
    mapGet (a ++ b) k =
      match mapGet a k with
      | some v => some v
      | none => mapGet b k := by
  induction a with
  | nil => simp [mapGet]
  | cons p rest ih =>
    obtain ⟨k0, v0⟩ := p
    by_cases h : k0 = k
    · simp [mapGet, h]
    · simp [mapGet, h, ih]

lemma mapGet_mapUpdate_self {α : Type} (m : List (String × α)) (k : String) (f : α → α) :
    mapGet (mapUpdate m k f) k = (mapGet m k).map f := by
  induction m with
  | nil => simp [mapGet, mapUpdate]
  | cons p rest ih =>
    obtain ⟨k0, v0⟩ := p
    by_cases h : k0 = k
    · simp [mapGet, mapUpdate, h]
    · simp [mapGet, mapUpdate, h, ih]

lemma mapGet_mapUpdate_ne {α : Type} (m : List (String × α)) (k k2 : String)
    (f : α → α) (h : k ≠ k2) :
    mapGet (mapUpdate m k f) k2 = mapGet m k2 := by
  induction m with
  | nil => simp [mapGet, mapUpdate]
  | cons p rest ih =>
    obtain ⟨k0, v0⟩ := p
    by_cases h0 : k0 = k
    · subst h0
      simp [mapGet, mapUpdate, h]
    · by_cases h2 : k0 = k2
      · simp [mapGet, mapUpdate, h0, h2, Ne.symm h]
      · simp [mapGet, mapUpdate, h0, h2, ih]

/- ------------------------------------------------------------------ -/
/- C6                                                                 -/
/- ------------------------------------------------------------------ -/

/-- The non-hook stats records whose logical test name is `k`. -/
def relStats (stats : List TestStats) (k : String) : List TestStats :=
  stats.filter (fun s => !is_hook s.test_file && (get_test_name s.test_file == k))

lemma build_loop_avg (hm : List (String × List HookRuntimeHistory)) (k : String) :
    ∀ (stats : List TestStats) (acc : List (String × TestRuntimeHistory)),
      (mapGet (stats.foldl (testStep hm) acc) k).map (fun h => h.average_runtime)
        = match (mapGet acc k).map (fun h => h.average_runtime) with
          | some a => some (a + ((relStats stats k).map (fun s => s.avg_duration_pass)).sum)
          | none =>
            if relStats stats k = [] then none
            else some (((relStats stats k).map (fun s => s.avg_duration_pass)).sum) := by
  intro stats
  induction stats with
  | nil =>
    intro acc
    cases h : (mapGet acc k).map (fun h => h.average_runtime) with
    | none => simp [relStats, h]
    | some a => simp [relStats, h]
  | cons s rest ih =>
    intro acc
    simp only [List.foldl_cons]
    by_cases hhook : is_hook s.test_file
    · have hstep : testStep hm acc s = acc := by simp [testStep, hhook]
      have hrel : relStats (s :: rest) k = relStats rest k := by
        simp [relStats, hhook]
      rw [hstep, hrel]
      exact ih acc
    · by_cases hname : get_test_name s.test_file = k
      · have hrel : relStats (s :: rest) k = s :: relStats rest k := by
          simp [relStats, hhook, hname]
        rw [hrel]
        cases hacc : mapGet acc k with
        | some v =>
          have hstep : testStep hm acc s =
              mapUpdate acc k (fun v =>
                { v with test_name := s.test_file,
                         average_runtime := v.average_runtime + s.avg_duration_pass }) := by
            simp [testStep, hhook, hname, hacc]
          rw [hstep, ih]
          rw [mapGet_mapUpdate_self, hacc]
          simp [add_assoc]
        | none =>
          have hstep : testStep hm acc s =
              acc ++ [(k, ⟨s.test_file, s.avg_duration_pass, (mapGet hm k).getD []⟩)] := by
            simp [testStep, hhook, hname, hacc]
          rw [hstep, ih]
          rw [mapGet_append, hacc]
          simp [mapGet, hacc, List.map_cons, List.sum_cons]
      · have hrel : relStats (s :: rest) k = relStats rest k := by
          simp [relStats, hhook, hname]
        rw [hrel]
        cases hacc : mapGet acc (get_test_name s.test_file) with
        | some v =>
          have hstep : testStep hm acc s =
              mapUpdate acc (get_test_name s.test_file) (fun v =>
                { v with test_name := s.test_file,
                         average_runtime := v.average_runtime + s.avg_duration_pass }) := by
            simp [testStep, hhook, hacc]
          rw [hstep, ih, mapGet_mapUpdate_ne _ _ _ _ hname]
        | none =>
          have hstep : testStep hm acc s =
              acc ++ [(get_test_name s.test_file,
                ⟨s.test_file, s.avg_duration_pass,
                  (mapGet hm (get_test_name s.test_file)).getD []⟩)] := by
            simp [testStep, hhook, hacc]
          have hsame : mapGet (acc ++ [(get_test_name s.test_file,
              (⟨s.test_file, s.avg_duration_pass,
                (mapGet hm (get_test_name s.test_file)).getD []⟩ : TestRuntimeHistory))]) k
              = mapGet acc k := by
            rw [mapGet_append]
            cases h2 : mapGet acc k with
            | some w => simp
            | none => simp [mapGet, hname]
          rw [hstep, ih, hsame]

/-- C6.  In `get_task_history`, every record whose `test_file` does not
contain `":"` is keyed by its logical test name (`get_test_name`: the final
path segment with trailing `".js"` trimmed), and when two or more records
collide on the same logical name their `avg_duration` values are summed
into the single entry stored under that key. -/
theorem get_task_history_keying (stats : List TestStats) (task suite k : String) :
    (mapGet (get_task_history stats task suite).test_map k).map (fun h => h.average_runtime)
      = if relStats stats k = [] then none
        else some (((relStats stats k).map (fun s => s.avg_duration_pass)).sum) := by
  have h := build_loop_avg (build_hook_map stats) k stats []
  simpa [get_task_history, build_test_map, mapGet] using h

/- ------------------------------------------------------------------ -/
/- src/resmoke.rs: the YAML document model.                           -/
/- ------------------------------------------------------------------ -/

/-- The fragment of `yaml_rust::Yaml` the suite-config code manipulates.
Scalar typing (`Yaml::from_str` turning numeric-looking text into
`Integer`, etc.) is abstracted to `str`: every key and every test path the
source passes through `Yaml::from_str` is a plain string scalar. -/
inductive Yaml where
  | str (s : String)
  | arr (items : List Yaml)
  | hash (entries : List (Yaml × Yaml))

/-- `k.as_str() == Some(s)`, equivalently equality of key `k` with the
string scalar `Yaml::from_str(s)`. -/
def yamlStrIs (k : Yaml) (s : String) : Bool :=
  match k with
  | .str t => t = s
  | _ => false

/-- `LinkedHashMap::get` with a string-scalar probe key. -/
def yGet : List (Yaml × Yaml) → String → Option Yaml
  | [], _ => none
  | (k, v) :: rest, key => if yamlStrIs k key then some v else yGet rest key

/-- `LinkedHashMap::remove` with a string-scalar key.  On the
duplicate-free maps produced by a YAML parser this removes the unique
matching entry. -/
def yRemove : List (Yaml × Yaml) → String → List (Yaml × Yaml)
  | [], _ => []
  | (k, v) :: rest, key =>
    if yamlStrIs k key then yRemove rest key else (k, v) :: yRemove rest key

def yContains (m : List (Yaml × Yaml)) (key : String) : Bool :=
  (yGet m key).isSome

/-- `LinkedHashMap::insert` with a string-scalar key: the value under the
key is replaced (entry position inside the map is irrelevant to every
property proved below). -/
def yInsert (m : List (Yaml × Yaml)) (key : String) (v : Yaml) : List (Yaml × Yaml) :=
  yRemove m key ++ [(Yaml.str key, v)]

/-- The `selector` rewrite of `ResmokeSuiteConfig::update_config`
(src/resmoke.rs lines 154-191), applied to the selector mapping. -/
def updatedSelector (test_list : List String) (all_tests : Option (List String))
    (selector : List (Yaml × Yaml)) : List (Yaml × Yaml) :=
  match all_tests with
  | some all =>
    match yGet selector "exclude_files" with
    | some (Yaml.arr excluded_file_list) =>
      yInsert selector "exclude_files" (Yaml.arr (excluded_file_list ++ all.map Yaml.str))
    | some _ => selector
    | none => yInsert selector "exclude_files" (Yaml.arr (all.map Yaml.str))
  | none =>
    let s1 :=
      if yContains selector "exclude_files" then yRemove selector "exclude_files"
      else selector
    yInsert s1 "roots" (Yaml.arr (test_list.map Yaml.str))

/-- The `for k in map.keys()` loop of `update_config`: entries are copied in
order; a `selector` entry whose value is a mapping is rewritten, a
`selector` entry with a non-mapping value is dropped. -/
def rewriteEntries (test_list : List String) (all_tests : Option (List String)) :
    List (Yaml × Yaml) → List (Yaml × Yaml)
  | [] => []
  | (k, v) :: rest =>
    if yamlStrIs k "selector" then
      match v with
      | Yaml.hash selector =>
        (k, Yaml.hash (updatedSelector test_list all_tests selector)) ::
          rewriteEntries test_list all_tests rest
      | _ => rewriteEntries test_list all_tests rest
    else (k, v) :: rewriteEntries test_list all_tests rest

/-- `ResmokeSuiteConfig::update_config` (src/resmoke.rs lines 147-205),
modelled up to the resulting document (the trailing `YamlEmitter`
serialization of that document is outside the embedding).  A non-mapping
root yields the empty mapping, exactly as the source's untouched
`new_map`. -/
def update_config (config : Yaml) (test_list : List String)
    (all_tests : Option (List String)) : Yaml :=
  match config with
  | Yaml.hash m => Yaml.hash (rewriteEntries test_list all_tests m)
  | _ => Yaml.hash []

/- ------------------------------------------------------------------ -/
/- Lookup lemmas for the YAML hash model.                             -/
/- ------------------------------------------------------------------ -/

lemma yGet_append (a b : List (Yaml × Yaml)) (key : String) :
    yGet (a ++ b) key =
      match yGet a key with
      | some v => some v
      | none => yGet b key := by
  induction a with
  | nil => simp [yGet]
  | cons p rest ih =>
    obtain ⟨k, v⟩ := p
    by_cases h : yamlStrIs k key
    · simp [yGet, h]
    · simp [yGet, h, ih]

lemma yGet_yRemove_self (m : List (Yaml × Yaml)) (key : String) :
    yGet (yRemove m key) key = none := by
  induction m with
  | nil => simp [yGet, yRemove]
  | cons p rest ih =>
    obtain ⟨k, v⟩ := p
    by_cases h : yamlStrIs k key
    · simp [yRemove, h, ih]
    · simp [yRemove, yGet, h, ih]

lemma yamlStrIs_ne (k : Yaml) (s t : String) (hst : s ≠ t) (h : yamlStrIs k s = true) :
    yamlStrIs k t = false := by
  cases k with
  | str u =>
    simp [yamlStrIs] at h ⊢
    rw [h]
    exact hst
  | arr items => simp [yamlStrIs]
  | hash entries => simp [yamlStrIs]

lemma yGet_yRemove_ne (m : List (Yaml × Yaml)) (key key2 : String) (h : key ≠ key2) :
    yGet (yRemove m key) key2 = yGet m key2 := by
  induction m with
  | nil => simp [yGet, yRemove]
  | cons p rest ih =>
    obtain ⟨k, v⟩ := p
    by_cases hk : yamlStrIs k key
    · have : yamlStrIs k key2 = false := yamlStrIs_ne k key key2 h hk
      simp [yRemove, yGet, hk, this, ih]
    · by_cases hk2 : yamlStrIs k key2
      · simp [yRemove, yGet, hk, hk2]
      · simp [yRemove, yGet, hk, hk2, ih]

lemma yGet_yInsert_self (m : List (Yaml × Yaml)) (key : String) (v : Yaml) :
    yGet (yInsert m key v) key = some v := by
  rw [yInsert, yGet_append, yGet_yRemove_self]
  simp [yGet, yamlStrIs]

lemma yGet_yInsert_ne (m : List (Yaml × Yaml)) (key key2 : String) (v : Yaml)
    (h : key ≠ key2) :
    yGet (yInsert m key v) key2 = yGet m key2 := by
  rw [yInsert, yGet_append, yGet_yRemove_ne m key key2 h]
  cases h2 : yGet m key2 with
  | some w => simp
  | none => simp [yGet, yamlStrIs, h]

lemma yGet_rewriteEntries_ne (tl : List String) (at0 : Option (List String))
    (m : List (Yaml × Yaml)) (s : String) (h : s ≠ "selector") :
    yGet (rewriteEntries tl at0 m) s = yGet m s := by
  induction m with
  | nil => simp [rewriteEntries]
  | cons p rest ih =>
    obtain ⟨k, v⟩ := p
    by_cases hk : yamlStrIs k "selector"
    · have hks : yamlStrIs k s = false := yamlStrIs_ne k "selector" s (Ne.symm h) hk
      cases v with
      | str a => simp [rewriteEntries, yGet, hk, hks, ih]
      | arr a => simp [rewriteEntries, yGet, hk, hks, ih]
      | hash sel => simp [rewriteEntries, yGet, hk, hks, ih]
    · by_cases hks : yamlStrIs k s
      · simp [rewriteEntries, yGet, hk, hks]
      · simp [rewriteEntries, yGet, hk, hks, ih]

lemma yGet_rewriteEntries_selector (tl : List String) (at0 : Option (List String))
    (m : List (Yaml × Yaml)) (sel : List (Yaml × Yaml))
    (hsel : yGet m "selector" = some (Yaml.hash sel)) :
    yGet (rewriteEntries tl at0 m) "selector"
      = some (Yaml.hash (updatedSelector tl at0 sel)) := by
  induction m with
  | nil => simp [yGet] at hsel
  | cons p rest ih =>
    obtain ⟨k, v⟩ := p
    by_cases hk : yamlStrIs k "selector"
    · rw [yGet] at hsel
      rw [if_pos hk] at hsel
      cases hsel
      simp [rewriteEntries, yGet, hk]
    · rw [yGet] at hsel
      rw [if_neg hk] at hsel
      by_cases hv : ∃ sel2, v = Yaml.hash sel2
      · obtain ⟨sel2, rfl⟩ := hv
        simp [rewriteEntries, yGet, hk, ih hsel]
      · cases v with
        | str a => simp [rewriteEntries, yGet, hk, ih hsel]
        | arr a => simp [rewriteEntries, yGet, hk, ih hsel]
        | hash sel2 => exact absurd ⟨sel2, rfl⟩ hv

lemma mem_rewriteEntries (tl : List String) (at0 : Option (List String))
    (m : List (Yaml × Yaml)) (p : Yaml × Yaml)
    (hp : p ∈ m) (hns : yamlStrIs p.1 "selector" = false) :
    p ∈ rewriteEntries tl at0 m := by
  induction m with
  | nil => simp at hp
  | cons q rest ih =>
    obtain ⟨k, v⟩ := q
    rcases List.mem_cons.mp hp with hq | hq
    · subst hq
      simp only [rewriteEntries, hns, if_neg]
      · exact List.mem_cons_self _ _
    · by_cases hk : yamlStrIs k "selector"
      · cases v with
        | str a => simpa [rewriteEntries, hk] using ih hq
        | arr a => simpa [rewriteEntries, hk] using ih hq
        | hash sel => simp [rewriteEntries, hk, ih hq]
      · simp [rewriteEntries, hk, ih hq]

/- ------------------------------------------------------------------ -/
/- C4                                                                 -/
/- ------------------------------------------------------------------ -/

/-- C4.  For any suite config with a mapping at the root and a `selector`
mapping, and any non-empty test list `L`, `update_config(S, L, None)`
yields a document identical to `S` except that `selector.roots` equals `L`
verbatim and `selector.exclude_files` is absent: every other top-level
entry is preserved (both by membership and by lookup), and every selector
key other than `roots` and `exclude_files` keeps its value. -/
theorem update_config_roots (m sel : List (Yaml × Yaml)) (L : List String)
    (hsel : yGet m "selector" = some (Yaml.hash sel)) (_hL : L ≠ []) :
    ∃ mNew selNew,
      update_config (Yaml.hash m) L none = Yaml.hash mNew ∧
      yGet mNew "selector" = some (Yaml.hash selNew) ∧
      yGet selNew "roots" = some (Yaml.arr (L.map Yaml.str)) ∧
      yGet selNew "exclude_files" = none ∧
      (∀ s : String, s ≠ "roots" → s ≠ "exclude_files" →
        yGet selNew s = yGet sel s) ∧
      (∀ s : String, s ≠ "selector" → yGet mNew s = yGet m s) ∧
      (∀ p ∈ m, yamlStrIs p.1 "selector" = false → p ∈ mNew) := by
  refine ⟨rewriteEntries L none m, updatedSelector L none sel, rfl, ?_, ?_, ?_, ?_, ?_, ?_⟩
  · exact yGet_rewriteEntries_selector L none m sel hsel
  · show yGet (updatedSelector L none sel) "roots" = some (Yaml.arr (L.map Yaml.str))
    unfold updatedSelector
    by_cases h : yContains sel "exclude_files"
    · simp only [if_pos h]
      exact yGet_yInsert_self _ _ _
    · simp only [if_neg h]
      exact yGet_yInsert_self _ _ _
  · show yGet (updatedSelector L none sel) "exclude_files" = none
    unfold updatedSelector
    by_cases h : yContains sel "exclude_files"
    · simp only [if_pos h]
      rw [yGet_yInsert_ne _ _ _ _ (by decide)]
      exact yGet_yRemove_self _ _
    · simp only [if_neg h]
      rw [yGet_yInsert_ne _ _ _ _ (by decide)]
      unfold yContains at h
      cases h2 : yGet sel "exclude_files" with
      | some v => rw [h2] at h; simp at h
      | none => rfl
  · intro s hroots hex
    show yGet (updatedSelector L none sel) s = yGet sel s
    unfold updatedSelector
    by_cases h : yContains sel "exclude_files"
    · simp only [if_pos h]
      rw [yGet_yInsert_ne _ _ _ _ (Ne.symm hroots)]
      exact yGet_yRemove_ne _ _ _ (Ne.symm hex)
    · simp only [if_neg h]
      exact yGet_yInsert_ne _ _ _ _ (Ne.symm hroots)
  · intro s hs
    exact yGet_rewriteEntries_ne L none m s hs
  · intro p hp hps
    exact mem_rewriteEntries L none m p hp hps

/-- A concrete suite configuration exercising C4 and C5: a root mapping
with `test_kind`, a `selector` holding `roots` and `exclude_files`, and an
`executor`. -/
def sampleSelector : List (Yaml × Yaml) :=
  [(Yaml.str "roots", Yaml.arr [Yaml.str "jstests/auth/x.js"]),
   (Yaml.str "exclude_files", Yaml.arr [Yaml.str "jstests/auth/repl.js"])]

def sampleConfigEntries : List (Yaml × Yaml) :=
  [(Yaml.str "test_kind", Yaml.str "js_test"),
   (Yaml.str "selector", Yaml.hash sampleSelector),
   (Yaml.str "executor", Yaml.hash [])]

/-- C4, witness: the theorem applied to the sample configuration and the
test list `["jstests/core/a.js"]`. -/
theorem update_config_roots_witness :
    ∃ mNew selNew,
      update_config (Yaml.hash sampleConfigEntries) ["jstests/core/a.js"] none
          = Yaml.hash mNew ∧
      yGet mNew "selector" = some (Yaml.hash selNew) ∧
      yGet selNew "roots" = some (Yaml.arr (["jstests/core/a.js"].map Yaml.str)) ∧
      yGet selNew "exclude_files" = none ∧
      (∀ s : String, s ≠ "roots" → s ≠ "exclude_files" →
        yGet selNew s = yGet sampleSelector s) ∧
      (∀ s : String, s ≠ "selector" → yGet mNew s = yGet sampleConfigEntries s) ∧
      (∀ p ∈ sampleConfigEntries, yamlStrIs p.1 "selector" = false → p ∈ mNew) :=
  update_config_roots sampleConfigEntries sampleSelector ["jstests/core/a.js"] rfl
    (by simp)

/- ------------------------------------------------------------------ -/
/- C5                                                                 -/
/- ------------------------------------------------------------------ -/

/-- The pre-existing `selector.exclude_files` entries (empty when the list
is absent). -/
def preExisting (sel : List (Yaml × Yaml)) : List Yaml :=
  match yGet sel "exclude_files" with
  | some (Yaml.arr xs) => xs
  | _ => []

/-- C5.  For any suite config with a mapping at the root and a `selector`
mapping whose `exclude_files` is absent or a list, and any exclusion set
`E`, `update_config(S, [], Some(E))` preserves `selector.roots` unchanged
and yields `selector.exclude_files` equal to the pre-existing entries
followed by the elements of `E`, creating the list when it was absent;
every other top-level entry is preserved. -/
theorem update_config_exclusions (m sel : List (Yaml × Yaml)) (E : List String)
    (hsel : yGet m "selector" = some (Yaml.hash sel))
    (hex : yGet sel "exclude_files" = none ∨
      ∃ xs, yGet sel "exclude_files" = some (Yaml.arr xs)) :
    ∃ mNew selNew,
      update_config (Yaml.hash m) [] (some E) = Yaml.hash mNew ∧
      yGet mNew "selector" = some (Yaml.hash selNew) ∧
      yGet selNew "roots" = yGet sel "roots" ∧
      yGet selNew "exclude_files"
        = some (Yaml.arr (preExisting sel ++ E.map Yaml.str)) ∧
      (∀ s : String, s ≠ "selector" → yGet mNew s = yGet m s) ∧
      (∀ p ∈ m, yamlStrIs p.1 "selector" = false → p ∈ mNew) := by
  refine ⟨rewriteEntries [] (some E) m, updatedSelector [] (some E) sel, rfl, ?_, ?_, ?_, ?_, ?_⟩
  · exact yGet_rewriteEntries_selector [] (some E) m sel hsel
  · show yGet (updatedSelector [] (some E) sel) "roots" = yGet sel "roots"
    unfold updatedSelector
    rcases hex with h | ⟨xs, h⟩
    · rw [h]
      exact yGet_yInsert_ne _ _ _ _ (by decide)
    · rw [h]
      exact yGet_yInsert_ne _ _ _ _ (by decide)
  · show yGet (updatedSelector [] (some E) sel) "exclude_files"
        = some (Yaml.arr (preExisting sel ++ E.map Yaml.str))
    unfold updatedSelector preExisting
    rcases hex with h | ⟨xs, h⟩
    · rw [h]
      simpa using yGet_yInsert_self sel "exclude_files" (Yaml.arr (E.map Yaml.str))
    · rw [h]
      exact yGet_yInsert_self _ _ _
  · intro s hs
    exact yGet_rewriteEntries_ne [] (some E) m s hs
  · intro p hp hps
    exact mem_rewriteEntries [] (some E) m p hp hps

/-- C5, witness: the theorem applied to the sample configuration and the
exclusion set `["jstests/core/a.js", "jstests/core/b.js"]`. -/
theorem update_config_exclusions_witness :
    ∃ mNew selNew,
      update_config (Yaml.hash sampleConfigEntries) []
          (some ["jstests/core/a.js", "jstests/core/b.js"]) = Yaml.hash mNew ∧
      yGet mNew "selector" = some (Yaml.hash selNew) ∧
      yGet selNew "roots" = yGet sampleSelector "roots" ∧
      yGet selNew "exclude_files"
        = some (Yaml.arr (preExisting sampleSelector ++
            (["jstests/core/a.js", "jstests/core/b.js"].map Yaml.str))) ∧
      (∀ s : String, s ≠ "selector" → yGet mNew s = yGet sampleConfigEntries s) ∧
      (∀ p ∈ sampleConfigEntries, yamlStrIs p.1 "selector" = false → p ∈ mNew) :=
  update_config_exclusions sampleConfigEntries sampleSelector
    ["jstests/core/a.js", "jstests/core/b.js"] rfl
    (Or.inr ⟨[Yaml.str "jstests/auth/repl.js"], rfl⟩)

/- ------------------------------------------------------------------ -/
/- src/resmoke.rs: fixture classification.                            -/
/- ------------------------------------------------------------------ -/

inductive SuiteFixtureType where
  | Shell
  | Repl
  | Shard
  | Other
deriving Repr, DecidableEq

/-- `SuiteFixtureType::get_version_combinations` (src/resmoke.rs 69-78). -/
def get_version_combinations : SuiteFixtureType → List String
  | .Shard => ["new_old_old_new"]
  | .Repl => ["new_new_old", "new_old_new", "old_new_new"]
  | _ => [""]

/-- Outcome of a fallible suite-config operation: `ok`, an
`InvalidSuiteConfig`-style error carrying the `bail!` message, or a panic
(an `unwrap()` on `None`). -/
inductive RunOutcome (α : Type) where
  | ok (a : α)
  | err (msg : String)
  | panicked
deriving Repr, DecidableEq

/-- `ResmokeSuiteConfig::get_executor` (src/resmoke.rs 140-145).  A
non-mapping root bails; a mapping without an `executor` key panics on the
`unwrap()`. -/
def get_executor (config : Yaml) : RunOutcome Yaml :=
  match config with
  | Yaml.hash m =>
    match yGet m "executor" with
    | some v => .ok v
    | none => .panicked
  | _ => .err "Expected map at root of resmoke config"

/-- `ResmokeSuiteConfig::get_fixture_type` (src/resmoke.rs 106-138). -/
def get_fixture_type (config : Yaml) : RunOutcome SuiteFixtureType :=
  match get_executor config with
  | .ok (Yaml.hash executor) =>
    match yGet executor "fixture" with
    | some (Yaml.hash fixture) =>
      match yGet fixture "class" with
      | some (Yaml.str fixture_class) =>
        if fixture_class = "ShardedClusterFixture" then .ok .Shard
        else if fixture_class = "ReplicaSetFixture" then .ok .Repl
        else .ok .Other
      | some _ => .ok .Other
      | none => .ok .Other
    | some _ => .ok .Other
    | none => .ok .Shell
  | .ok _ => .err "Expected map as executor"
  | .err m => .err m
  | .panicked => .panicked

/-- The classification table as the spec states it, written against an
executor mapping: missing `fixture` is `Shell`, `executor.fixture.class`
equal to `"ShardedClusterFixture"` is `Shard`, `"ReplicaSetFixture"` is
`Repl`, and every remaining case is `Other`. -/
def fixtureClassSpec (executor : List (Yaml × Yaml)) : SuiteFixtureType :=
  match yGet executor "fixture" with
  | none => .Shell
  | some (Yaml.hash fx) =>
    match yGet fx "class" with
    | some (Yaml.str c) =>
      if c = "ShardedClusterFixture" then .Shard
      else if c = "ReplicaSetFixture" then .Repl
      else .Other
    | _ => .Other
  | some _ => .Other

/- The four unit tests of src/resmoke.rs, on their executor fragments. -/
example :
    get_fixture_type (Yaml.hash [(Yaml.str "executor",
      Yaml.hash [(Yaml.str "config", Yaml.hash [])])]) = .ok .Shell := rfl
example :
    get_fixture_type (Yaml.hash [(Yaml.str "executor",
      Yaml.hash [(Yaml.str "fixture",
        Yaml.hash [(Yaml.str "class", Yaml.str "ShardedClusterFixture")])])])
      = .ok .Shard := rfl
example :
    get_fixture_type (Yaml.hash [(Yaml.str "executor",
      Yaml.hash [(Yaml.str "fixture",
        Yaml.hash [(Yaml.str "class", Yaml.str "ReplicaSetFixture")])])])
      = .ok .Repl := rfl
example :
    get_fixture_type (Yaml.hash [(Yaml.str "executor",
      Yaml.hash [(Yaml.str "fixture",
        Yaml.hash [(Yaml.str "num_nodes", Yaml.str "3")])])])
      = .ok .Other := rfl

/- ------------------------------------------------------------------ -/
/- C8                                                                 -/
/- ------------------------------------------------------------------ -/

lemma get_fixture_type_ok (m ex : List (Yaml × Yaml))
    (hex2 : yGet m "executor" = some (Yaml.hash ex)) :
    get_fixture_type (Yaml.hash m) = RunOutcome.ok (fixtureClassSpec ex) := by
  rw [get_fixture_type]
  simp only [get_executor, hex2]
  rw [fixtureClassSpec]
  cases hc : yGet ex "fixture" with
  | none => simp
  | some f =>
    cases f with
    | str a => simp
    | arr a => simp
    | hash fx =>
      cases hcl : yGet fx "class" with
      | none => simp [hcl]
      | some cv =>
        cases cv with
        | str c =>
          by_cases h1 : c = "ShardedClusterFixture"
          · simp [hcl, h1]
          · by_cases h2 : c = "ReplicaSetFixture"
            · simp [hcl, h1, h2]
            · simp [hcl, h1, h2]
        | arr a => simp [hcl]
        | hash a => simp [hcl]

/-- C8.  For every suite config whose root, if a mapping, carries an
`executor` key (absent that key the code panics on an `unwrap` rather than
reporting anything), `get_fixture_type` fails with an InvalidSuiteConfig
error exactly when the root or the executor is not a mapping; and whenever
the executor is a mapping it returns `Shell` when the executor has no
`fixture` key, `Shard` for `executor.fixture.class = "ShardedClusterFixture"`,
`Repl` for `"ReplicaSetFixture"`, and `Other` in all remaining cases, as
captured by the spec-side table `fixtureClassSpec`. -/
theorem get_fixture_type_classification (config : Yaml)
    (hexec : ∀ m : List (Yaml × Yaml), config = Yaml.hash m → (yGet m "executor").isSome) :
    ((∃ e, get_fixture_type config = RunOutcome.err e) ↔
      ¬ ∃ m ex, config = Yaml.hash m ∧ yGet m "executor" = some (Yaml.hash ex)) ∧
    (∀ m ex, config = Yaml.hash m → yGet m "executor" = some (Yaml.hash ex) →
      get_fixture_type config = RunOutcome.ok (fixtureClassSpec ex)) := by
  constructor
  · cases config with
    | str s =>
      constructor
      · rintro - ⟨m, ex, hm, -⟩
        cases hm
      · intro _
        exact ⟨"Expected map at root of resmoke config", rfl⟩
    | arr items =>
      constructor
      · rintro - ⟨m, ex, hm, -⟩
        cases hm
      · intro _
        exact ⟨"Expected map at root of resmoke config", rfl⟩
    | hash m =>
      have hs := hexec m rfl
      cases hv : yGet m "executor" with
      | none => rw [hv] at hs; simp at hs
      | some v =>
        cases v with
        | hash ex =>
          constructor
          · rintro ⟨e, he⟩ -
            rw [get_fixture_type_ok m ex hv] at he
            cases he
          · intro hno
            exact absurd ⟨m, ex, rfl, hv⟩ hno
        | str s2 =>
          constructor
          · rintro - ⟨m2, ex, hm2, hex2⟩
            cases hm2
            rw [hv] at hex2
            simp at hex2
          · intro _
            refine ⟨"Expected map as executor", ?_⟩
            rw [get_fixture_type]
            simp [get_executor, hv]
        | arr items =>
          constructor
          · rintro - ⟨m2, ex, hm2, hex2⟩
            cases hm2
            rw [hv] at hex2
            simp at hex2
          · intro _
            refine ⟨"Expected map as executor", ?_⟩
            rw [get_fixture_type]
            simp [get_executor, hv]
  · rintro m ex rfl hex2
    exact get_fixture_type_ok m ex hex2

/-- C8, witness: a sharded-cluster executor mapping classifies as `Shard`,
through the spec-side table. -/
theorem get_fixture_type_classification_witness :
    get_fixture_type (Yaml.hash [(Yaml.str "executor", Yaml.hash
        [(Yaml.str "fixture",
          Yaml.hash [(Yaml.str "class", Yaml.str "ShardedClusterFixture")])])])
      = RunOutcome.ok (fixtureClassSpec
          [(Yaml.str "fixture",
            Yaml.hash [(Yaml.str "class", Yaml.str "ShardedClusterFixture")])]) :=
  (get_fixture_type_classification _
      (by intro m hm; cases hm; rfl)).2 _ _ rfl rfl

/- ------------------------------------------------------------------ -/
/- shrub_rs model types used by the fuzzer generator and lib.rs.      -/
/- ------------------------------------------------------------------ -/

inductive ParamValue where
  | pstr (s : String)
  | pbool (b : Bool)
  | pnum (n : Nat)
deriving Repr, DecidableEq

structure FunctionCall where
  func : String
  vars : Option (List (String × ParamValue))
deriving Repr, DecidableEq

inductive EvgCommand where
  | function (call : FunctionCall)
  | builtin (name : String)
deriving Repr, DecidableEq

def fn_call (name : String) : EvgCommand := .function ⟨name, none⟩

def fn_call_with_params (name : String) (vars : List (String × ParamValue)) : EvgCommand :=
  .function ⟨name, some vars⟩

structure TaskDependency where
  name : String
  variant : Option String
deriving Repr, DecidableEq

structure EvgTask where
  name : String
  commands : List EvgCommand
  depends_on : Option (List TaskDependency)
deriving Repr, DecidableEq

/-- Association-list model of `HashMap::insert`: replace the value in
place, or append a fresh entry. -/
def mapInsert {α : Type} : List (String × α) → String → α → List (String × α)
  | [], k, v => [(k, v)]
  | (k0, v0) :: rest, k, v =>
    if k0 = k then (k, v) :: rest else (k0, v0) :: mapInsert rest k v

/- ------------------------------------------------------------------ -/
/- src/task_types/fuzzer_tasks.rs                                     -/
/- ------------------------------------------------------------------ -/

structure FuzzerTask where
  task_name : String
  sub_tasks : List EvgTask

structure FuzzerGenTaskParams where
  task_name : String
  variant : String
  suite : String
  num_files : Nat
  num_tasks : Nat
  resmoke_args : String
  npm_command : String
  jstestfuzz_vars : Option String
  continue_on_failure : Bool
  resmoke_jobs_max : Nat
  should_shuffle : Bool
  timeout_secs : Nat
  require_multiversion_setup : Option Bool
  use_large_distro : Option Bool
  large_distro_name : Option String
  config_location : String
  suite_config : Yaml

/-- `FuzzerGenTaskParams::build_jstestfuzz_vars`. -/
def build_jstestfuzz_vars (p : FuzzerGenTaskParams) : List (String × ParamValue) :=
  mapInsert
    (mapInsert [] "npm_command" (.pstr p.npm_command))
    "jstestfuzz_vars"
    (.pstr ("--numGeneratedFiles " ++ natRepr p.num_files ++ " " ++
      p.jstestfuzz_vars.getD ""))

/-- `FuzzerGenTaskParams::build_run_tests_vars`. -/
def build_run_tests_vars (p : FuzzerGenTaskParams)
    (suite_name bin_version : Option String) : List (String × ParamValue) :=
  let vars :=
    mapInsert (mapInsert (mapInsert (mapInsert (mapInsert (mapInsert (mapInsert (mapInsert
      (mapInsert []
        "continue_on_failure" (.pbool p.continue_on_failure))
        "resmoke_args" (.pstr p.resmoke_args))
        "resmoke_jobs_max" (.pnum p.resmoke_jobs_max))
        "should_shuffle" (.pbool p.should_shuffle))
        "require_multiversion_setup" (.pbool (p.require_multiversion_setup.getD false)))
        "timeout_secs" (.pnum p.timeout_secs))
        "task" (.pstr p.task_name))
        "gen_task_config_location" (.pstr p.config_location))
        "suite" (.pstr (suite_name.getD p.suite))
  match bin_version with
  | some bv => mapInsert vars "multiversion_exclude_tags_version" (.pstr bv)
  | none => vars

/-- `GenFuzzerServiceImpl::build_name`: join the non-empty parts with
`"_"`. -/
def build_name (base_name old_version mixed_bin_version : String) : String :=
  String.intercalate "_"
    ([base_name, old_version, mixed_bin_version].filter (fun p => !p.isEmpty))

/-- `build_fuzzer_sub_task` (src/task_types/fuzzer_tasks.rs 229-276). -/
def build_fuzzer_sub_task (task_name : String) (task_index : Nat)
    (params : FuzzerGenTaskParams) (suite_name bin_version : Option String) : EvgTask :=
  let sub_task_name := name_generated_task_core task_name task_index params.num_tasks
    (variantSuffix (some params.variant))
  let commands :=
    (if params.require_multiversion_setup.getD false then
      [fn_call "git get project no modules", fn_call "add git tag"]
    else []) ++
    [fn_call "do setup", fn_call "configure evergreen api credentials"] ++
    (if params.require_multiversion_setup.getD false then
      [fn_call "do multiversion setup"]
    else []) ++
    [fn_call "setup jstestfuzz",
     fn_call_with_params "run jstestfuzz" (build_jstestfuzz_vars params),
     fn_call_with_params "run generated tests"
       (build_run_tests_vars params suite_name bin_version)]
  ⟨sub_task_name, commands, some [⟨"archive_dist_test_debug", none⟩]⟩

/-- `GenFuzzerServiceImpl::generate_fuzzer_task`
(src/task_types/fuzzer_tasks.rs 184-226).  `none` models the panic of
`params.get_version_combination()`'s `unwrap()` when `get_fixture_type`
does not succeed. -/
def generate_fuzzer_task (last_versions : List String)
    (params : FuzzerGenTaskParams) : Option FuzzerTask :=
  if params.require_multiversion_setup.getD false then
    match get_fixture_type params.suite_config with
    | .ok fixture =>
      let version_combinations := get_version_combinations fixture
      some ⟨params.task_name,
        (last_versions.map (fun version =>
          (version_combinations.map (fun mixed_bin_version =>
            (List.range params.num_tasks).map (fun i =>
              build_fuzzer_sub_task (build_name params.task_name version mixed_bin_version)
                i params
                (some (build_name params.suite version mixed_bin_version))
                (some mixed_bin_version)))).flatten)).flatten⟩
    | _ => none
  else
    some ⟨params.task_name,
      (List.range params.num_tasks).map (fun i =>
        build_fuzzer_sub_task params.task_name i params none none)⟩

/- The literal cases of the `build_name` unit tests. -/
example : build_name "agg_fuzzer" "last_lts" "new_old_new" = "agg_fuzzer_last_lts_new_old_new" := rfl
example : build_name "agg_fuzzer" "last_lts" "" = "agg_fuzzer_last_lts" := rfl

lemma sum_map_const {α : Type} (l : List α) (n : Nat) :
    (l.map (fun _ => n)).sum = l.length * n := by
  induction l with
  | nil => simp
  | cons a rest ih => simp [ih, Nat.succ_mul, Nat.add_comm]

lemma flatten_cross_length (lv combos : List String) (n : Nat)
    (f : String → String → Nat → EvgTask) :
    ((lv.map (fun v =>
      (combos.map (fun c => (List.range n).map (f v c))).flatten)).flatten).length
      = n * lv.length * combos.length := by
  rw [List.length_flatten, List.map_map]
  have hinner : ∀ v : String,
      ((combos.map (fun c => (List.range n).map (f v c))).flatten).length
        = combos.length * n := by
    intro v
    rw [List.length_flatten, List.map_map]
    have : (List.length ∘ fun c => (List.range n).map (f v c)) = fun _ => n := by
      funext c
      simp
    rw [this, sum_map_const]
  have : (List.length ∘ fun v =>
      (combos.map (fun c => (List.range n).map (f v c))).flatten)
      = fun _ => combos.length * n := by
    funext v
    simpa using hinner v
  rw [this, sum_map_const]
  ring

/- ------------------------------------------------------------------ -/
/- C7                                                                 -/
/- ------------------------------------------------------------------ -/

/-- C7.  For every `FuzzerGenTaskParams` whose suite config classifies
successfully, `generate_fuzzer_task` returns exactly
`num_tasks × |last_versions| × |fixture version_combinations|` sub-tasks
when `require_multiversion_setup` is truthy, and exactly `num_tasks`
sub-tasks when it is falsy. -/
theorem generate_fuzzer_task_count (last_versions : List String)
    (params : FuzzerGenTaskParams) (fixture : SuiteFixtureType)
    (hft : get_fixture_type params.suite_config = RunOutcome.ok fixture) :
    (params.require_multiversion_setup.getD false = true →
      ∃ t, generate_fuzzer_task last_versions params = some t ∧
        t.sub_tasks.length =
          params.num_tasks * last_versions.length *
            (get_version_combinations fixture).length) ∧
    (params.require_multiversion_setup.getD false = false →
      ∃ t, generate_fuzzer_task last_versions params = some t ∧
        t.sub_tasks.length = params.num_tasks) := by
  constructor
  · intro hmv
    rw [generate_fuzzer_task]
    rw [if_pos hmv, hft]
    refine ⟨_, rfl, ?_⟩
    exact flatten_cross_length last_versions (get_version_combinations fixture)
      params.num_tasks _
  · intro hmv
    rw [generate_fuzzer_task]
    rw [if_neg (by rw [hmv]; exact Bool.false_ne_true)]
    refine ⟨_, rfl, ?_⟩
    simp

/-- A replica-set-fixture suite config. -/
def replConfig : Yaml :=
  Yaml.hash [(Yaml.str "executor", Yaml.hash
    [(Yaml.str "fixture",
      Yaml.hash [(Yaml.str "class", Yaml.str "ReplicaSetFixture")])])]

/-- Concrete multiversion fuzzer parameters (spec scenario 5 shape). -/
def fuzzerParamsMv : FuzzerGenTaskParams :=
  { task_name := "agg_fuzzer"
    variant := "vA"
    suite := "agg"
    num_files := 5
    num_tasks := 2
    resmoke_args := "--x"
    npm_command := "jstestfuzz"
    jstestfuzz_vars := none
    continue_on_failure := false
    resmoke_jobs_max := 0
    should_shuffle := false
    timeout_secs := 30
    require_multiversion_setup := some true
    use_large_distro := none
    large_distro_name := none
    config_location := "loc"
    suite_config := replConfig }

/-- C7, witness: multiversion fuzzer generation over one last version and
the three replica-set combinations yields `2 × 1 × 3` sub-tasks. -/
theorem generate_fuzzer_task_count_witness :
    ∃ t, generate_fuzzer_task ["last_lts"] fuzzerParamsMv = some t ∧
      t.sub_tasks.length =
        fuzzerParamsMv.num_tasks * (["last_lts"] : List String).length *
          (get_version_combinations SuiteFixtureType.Repl).length :=
  (generate_fuzzer_task_count ["last_lts"] fuzzerParamsMv SuiteFixtureType.Repl rfl).1 rfl

/- ------------------------------------------------------------------ -/
/- src/taskname.rs                                                    -/
/- ------------------------------------------------------------------ -/

/-- `s` ends with `suf` (model of `str::ends_with`). -/
def strEndsWith (s suf : String) : Bool :=
  leadsList suf.toList.reverse s.toList.reverse

/-- `remove_gen_suffix_ref` from src/taskname.rs: strip a trailing
`"_gen"`. -/
def remove_gen_suffix_ref (task_name : String) : String :=
  if strEndsWith task_name "_gen" then
    String.mk (task_name.toList.take (task_name.toList.length - 4))
  else task_name

/- The unit tests of src/taskname.rs for suffix removal. -/
example : remove_gen_suffix_ref "task_name" = "task_name" := rfl
example : remove_gen_suffix_ref "task_name_gen" = "task_name" := rfl
example : remove_gen_suffix_ref "task_name_" = "task_name_" := rfl

/- ------------------------------------------------------------------ -/
/- src/lib.rs                                                         -/
/- ------------------------------------------------------------------ -/

/-- The closure both `is_task_generated` and `get_generate_resmoke_func`
test a command against. -/
def isGenerateResmokeCommand (c : EvgCommand) : Bool :=
  match c with
  | .function func => func.func == "generate resmoke tasks"
  | _ => false

/-- `is_task_generated` from src/lib.rs. -/
def is_task_generated (task : EvgTask) : Bool :=
  task.commands.any isGenerateResmokeCommand

/-- `get_generate_resmoke_func` from src/lib.rs.  The outer `Option` is
the panic channel: the source calls `.nth(0).unwrap()` on the filtered
iterator, which panics when no command matches. -/
def get_generate_resmoke_func (task : EvgTask) : Option (Option FunctionCall) :=
  match task.commands.filter isGenerateResmokeCommand with
  | [] => none
  | command :: _ =>
    some (match command with
      | .function func => some func
      | _ => none)

/-- `get_gen_task_var` from src/lib.rs (outer `Option` = panic channel). -/
def get_gen_task_var (task : EvgTask) (var : String) : Option (Option String) :=
  match get_generate_resmoke_func task with
  | none => none
  | some generate_func =>
    some (match generate_func with
      | some func =>
        match func.vars with
        | some vars =>
          match mapGet vars var with
          | some (ParamValue.pstr value) => some value
          | _ => none
        | none => none
      | none => none)

/-- `find_suite_name` from src/lib.rs (outer `Option` = panic channel). -/
def find_suite_name (task : EvgTask) : Option String :=
  match get_gen_task_var task "suite" with
  | none => none
  | some (some suite) => some suite
  | some none => some (remove_gen_suffix_ref task.name)

/-- `is_fuzzer_task` from src/lib.rs (outer `Option` = panic channel). -/
def is_fuzzer_task (task : EvgTask) : Option Bool :=
  match get_gen_task_var task "is_jstestfuzz" with
  | none => none
  | some (some is_jstestfuzz) => some (is_jstestfuzz == "true")
  | some none => some false

/- ------------------------------------------------------------------ -/
/- C10                                                                -/
/- ------------------------------------------------------------------ -/

/-- C10.  For every task whose command list contains a function call named
`"generate resmoke tasks"`, the helpers `get_gen_task_var`,
`is_fuzzer_task` and `find_suite_name` return without panicking; for every
task with no such call, `get_generate_resmoke_func` panics (the `unwrap`
on the empty filtered iterator), and the panic propagates to each public
helper — so `is_task_generated(task) = true` is a necessary precondition
for calling them. -/
theorem generated_task_precondition (task : EvgTask) (var : String) :
    (is_task_generated task = true →
      (get_generate_resmoke_func task).isSome ∧
      (get_gen_task_var task var).isSome ∧
      (find_suite_name task).isSome ∧
      (is_fuzzer_task task).isSome) ∧
    (is_task_generated task = false →
      get_generate_resmoke_func task = none ∧
      get_gen_task_var task var = none ∧
      find_suite_name task = none ∧
      is_fuzzer_task task = none) := by
  have hfilter : is_task_generated task = true ↔
      task.commands.filter isGenerateResmokeCommand ≠ [] := by
    rw [is_task_generated, List.any_eq_true]
    constructor
    · rintro ⟨c, hc, hp⟩ hnil
      have : c ∈ task.commands.filter isGenerateResmokeCommand :=
        List.mem_filter.mpr ⟨hc, hp⟩
      rw [hnil] at this
      simp at this
    · intro hne
      obtain ⟨c, hc⟩ := List.exists_mem_of_ne_nil _ hne
      exact ⟨c, (List.mem_filter.mp hc).1, (List.mem_filter.mp hc).2⟩
  cases hf : task.commands.filter isGenerateResmokeCommand with
  | nil =>
    have hgen : is_task_generated task = false := by
      cases hg : is_task_generated task
      · rfl
      · exact absurd hf (hfilter.mp hg)
    constructor
    · intro h
      rw [hgen] at h
      cases h
    · intro _
      have h1 : get_generate_resmoke_func task = none := by
        rw [get_generate_resmoke_func, hf]
      have h2 : get_gen_task_var task var = none := by
        rw [get_gen_task_var, h1]
      have h25 : get_gen_task_var task "suite" = none := by
        rw [get_gen_task_var, h1]
      have h26 : get_gen_task_var task "is_jstestfuzz" = none := by
        rw [get_gen_task_var, h1]
      have h3 : find_suite_name task = none := by
        rw [find_suite_name, h25]
      have h4 : is_fuzzer_task task = none := by
        rw [is_fuzzer_task, h26]
      exact ⟨h1, h2, h3, h4⟩
  | cons c rest =>
    constructor
    · intro _
      have h1 : (get_generate_resmoke_func task).isSome := by
        rw [get_generate_resmoke_func, hf]
        rfl
      cases hg : get_generate_resmoke_func task with
      | none => rw [hg] at h1; cases h1
      | some gf =>
        have h2 : ∀ v : String, (get_gen_task_var task v).isSome := by
          intro v
          rw [get_gen_task_var, hg]
          rfl
        have h3 : (find_suite_name task).isSome := by
          rw [find_suite_name]
          cases hs : get_gen_task_var task "suite" with
          | none =>
            have hcon := h2 "suite"
            rw [hs] at hcon
            cases hcon
          | some o => cases o <;> rfl
        have h4 : (is_fuzzer_task task).isSome := by
          rw [is_fuzzer_task]
          cases hs : get_gen_task_var task "is_jstestfuzz" with
          | none =>
            have hcon := h2 "is_jstestfuzz"
            rw [hs] at hcon
            cases hcon
          | some o => cases o <;> rfl
        exact ⟨rfl, h2 var, h3, h4⟩
    · intro hgen
      have : is_task_generated task = true := hfilter.mpr (by rw [hf]; simp)
      rw [hgen] at this
      cases this

/-- A concrete generator task definition. -/
def sampleGenTask : EvgTask :=
  ⟨"agg_gen",
   [fn_call "do setup",
    fn_call_with_params "generate resmoke tasks"
      [("suite", ParamValue.pstr "agg"), ("is_jstestfuzz", ParamValue.pstr "true")]],
   none⟩

/-- C10, witness: on a concrete generator task every helper is defined. -/
theorem generated_task_precondition_witness :
    (get_generate_resmoke_func sampleGenTask).isSome ∧
    (get_gen_task_var sampleGenTask "suite").isSome ∧
    (find_suite_name sampleGenTask).isSome ∧
    (is_fuzzer_task sampleGenTask).isSome :=
  (generated_task_precondition sampleGenTask "suite").1 rfl
